import Mathlib

/-!
Verification of the automated-trading-bot repository: a shallow embedding of
the frontend TypeScript that is present in the sources (trading-pair
selection, bot-creation payload, notification service, WebSocket reconnect
backoff, exchange API helpers) together with spec-modelled definitions of the
backend stop-loss engine (connector registry, stop-loss policy engine, order
reconciliation state machine), whose Python implementation is not among the
provided sources.
-/

/- ========================================================================
   Frontend: components/TradingPairsSelect.tsx
   ======================================================================== -/

/-- Embedding of `handlePairToggle` from `TradingPairsSelect`:
if the pair is already selected it is filtered out of the selection,
otherwise it is appended at the end. -/
def handlePairToggle (pair : String) (selectedPairs : List String) : List String :=
  if pair ∈ selectedPairs then
    selectedPairs.filter (fun p => p ≠ pair)
  else
    selectedPairs ++ [pair]

/- ========================================================================
   Frontend: lib/exchanges.ts
   ======================================================================== -/

/-- Classified failure of a backend API request, as observed by the
frontend helpers in `lib/exchanges.ts` (a thrown axios error). -/
inductive ApiError where
  | networkError
  | httpError (status : Nat)
deriving DecidableEq, Repr

/-- The hardcoded fallback pair list in `getTopTradingPairs`
(`lib/exchanges.ts`). -/
def defaultTopPairs : List String :=
  ["BTC/USDT", "ETH/USDT", "ADA/USDT", "DOT/USDT", "LINK/USDT",
   "BNB/USDT", "XRP/USDT", "SOL/USDT", "MATIC/USDT", "AVAX/USDT"]

/-- Embedding of `getTopTradingPairs` (`lib/exchanges.ts`): the outcome of
the `/exchanges/binance/top-pairs` request is passed in as an `Except`;
on success the fetched pairs are returned, on any error the function
catches the error and returns the hardcoded default pair list. -/
def getTopTradingPairs (response : Except ApiError (List String)) : List String :=
  match response with
  | .ok pairs => pairs
  | .error _ => defaultTopPairs

/-- Embedding of `getTickerPrice` (`lib/exchanges.ts`): on success the
ticker data is returned, on any error the function catches the error and
returns `null` (modelled as `none`). -/
def getTickerPrice (response : Except ApiError ℚ) : Option ℚ :=
  match response with
  | .ok price => some price
  | .error _ => none

/- ========================================================================
   Frontend: app/dashboard/create-bot/page.tsx (CreateBotPage.handleSubmit)
   ======================================================================== -/

/-- Trade type selected on the create-bot form: `'spot' | 'futures'`. -/
inductive TradeType where
  | spot
  | futures
deriving DecidableEq, Repr

/-- The trading-relevant fields of the payload `handleSubmit` passes to
`createBot`. -/
structure BotPayload where
  name : String
  strategy_name : String
  trade_type : TradeType
  direction : String
  leverage : Nat
deriving DecidableEq, Repr

/-- Embedding of the payload construction in `CreateBotPage.handleSubmit`:
all fields are forwarded from the form state, except that the leverage
field is `tradeType === 'futures' ? leverage : 1`. -/
def handleSubmitPayload (botName : String) (selectedStrategy : String)
    (tradeType : TradeType) (direction : String) (leverage : Nat) : BotPayload :=
  { name := botName
    strategy_name := selectedStrategy
    trade_type := tradeType
    direction := direction
    leverage := if tradeType = TradeType.futures then leverage else 1 }

/- ========================================================================
   Frontend: lib/notifications.ts (NotificationService)
   ======================================================================== -/

/-- A stored notification (`lib/notifications.ts`). -/
structure Notification where
  id : String
  title : String
  message : String
  read : Bool
deriving DecidableEq, Repr

/-- Embedding of `NotificationService.addNotification`: the new
notification is `unshift`ed to the front of the stored list, and if the
list then exceeds 100 entries it is truncated to its first 100 entries
(`slice(0, 100)`). -/
def addNotification (notification : Notification)
    (notifications : List Notification) : List Notification :=
  let pushed := notification :: notifications
  if 100 < pushed.length then pushed.take 100 else pushed

/-- `maxReconnectAttempts` field of `NotificationService`. -/
def maxReconnectAttempts : Nat := 5

/-- `reconnectDelay` field of `NotificationService` (milliseconds). -/
def reconnectDelay : Nat := 1000

/-- Embedding of `NotificationService.attemptReconnect`: when the attempt
counter has reached `maxReconnectAttempts` no reconnect is scheduled
(`none`); otherwise the counter is incremented to `n` and a reconnect is
scheduled after `reconnectDelay * 2 ^ (n - 1)` milliseconds.  The result
carries the new counter value and the delay. -/
def attemptReconnect (reconnectAttempts : Nat) : Option (Nat × Nat) :=
  if maxReconnectAttempts ≤ reconnectAttempts then none
  else
    let attempts := reconnectAttempts + 1
    some (attempts, reconnectDelay * 2 ^ (attempts - 1))

/- ========================================================================
   Backend: Connector Registry (spec §4.2)
   ======================================================================== -/

/-- Configuration error raised by the registry (spec §7, class (4)). -/
inductive ConfigError where
  | unsupportedExchange (exchangeId : String)
deriving DecidableEq, Repr

/-- Modelled from the spec: the Connector Registry's `resolve` operation
(spec §4.2, Python implementation `ExchangeFactory.create_exchange` not
among the provided sources).  The registry holds an association list from
exchange identifiers to connector constructors; resolving an identifier
that is not registered fails fast with a configuration error and never
falls back to a default connector. -/
def resolveConnector {C : Type} (registered : List (String × C))
    (exchangeId : String) : Except ConfigError C :=
  match registered.lookup exchangeId with
  | some connector => .ok connector
  | none => .error (.unsupportedExchange exchangeId)

/- ========================================================================
   Backend: Stop-Loss Policy Engine (spec §4.3)
   ======================================================================== -/

/-- Position side. -/
inductive Side where
  | long
  | short
deriving DecidableEq, Repr

/-- The tagged StopLossConfig variants (spec §3). -/
inductive StopLossConfig where
  | fixedPercentage (pct : ℚ)
  | trailing (pct : ℚ) (timeframe : Nat)
  | emaBased (period : Nat) (offsetPct : ℚ)
  | atrBased (period : Nat) (multiplier : ℚ)
  | supportLevel (lookback : Nat)
deriving DecidableEq, Repr

/-- Failure of a policy computation (spec §7, class (5)). -/
inductive PolicyError where
  | insufficientData
deriving DecidableEq, Repr

/-- Modelled from the spec: the number of price bars a policy variant
requires before it computes a target (spec §4.3: a policy requiring
insufficient history, fewer bars than its period, must fail explicitly).
FixedPercentage uses only the entry price; Trailing needs at least one
observed price; EMA needs `period` closes; ATR needs `period` ranges,
hence `period + 1` closes; SupportLevel needs `lookback` bars. -/
def requiredBars : StopLossConfig → Nat
  | .fixedPercentage _ => 0
  | .trailing _ _ => 1
  | .emaBased period _ => period
  | .atrBased period _ => period + 1
  | .supportLevel lookback => lookback

/-- Maximum of a price list (0 on the empty list; guarded by
`requiredBars` at every use). -/
def listMax : List ℚ → ℚ
  | [] => 0
  | p :: ps => ps.foldl max p

/-- Minimum of a price list (0 on the empty list; guarded by
`requiredBars` at every use). -/
def listMin : List ℚ → ℚ
  | [] => 0
  | p :: ps => ps.foldl min p

/-- Modelled from the spec: exponential moving average of closes over
`period` (spec §4.3, EMABased), seeded with the first close, smoothing
factor `2 / (period + 1)`. -/
def ema (period : Nat) (closes : List ℚ) : ℚ :=
  match closes with
  | [] => 0
  | c :: cs =>
      cs.foldl (fun acc p =>
        p * (2 / ((period : ℚ) + 1)) + acc * (1 - 2 / ((period : ℚ) + 1))) c

/-- Successive absolute close-to-close moves, the range series the ATR
model averages. -/
def trueRanges (closes : List ℚ) : List ℚ :=
  (closes.zip closes.tail).map (fun pr => |pr.2 - pr.1|)

/-- Modelled from the spec: average true range over the last `period`
ranges of the close series (spec §4.3, ATRBased; the Python
implementation is not among the provided sources, so bars are modelled
as close prices). -/
def atr (period : Nat) (closes : List ℚ) : ℚ :=
  let ranges := trueRanges closes
  ((ranges.drop (ranges.length - period)).foldl (· + ·) 0) / (period : ℚ)

/-- Modelled from the spec: nearest support (long) or resistance (short)
within the last `lookback` bars (spec §4.3, SupportLevel), modelled as
the extreme close of that window. -/
def supportLevelPrice (side : Side) (lookback : Nat) (closes : List ℚ) : ℚ :=
  let window := closes.drop (closes.length - lookback)
  match side with
  | .long => listMin window
  | .short => listMax window

/-- Modelled from the spec: the Stop-Loss Policy Engine's pure function
`computeTarget(policy, positionSide, entryPrice, priceHistory)`
(spec §4.3; the Python implementation is not among the provided
sources).  A history shorter than the policy's required bar count fails
with the explicit insufficient-data condition; otherwise each variant
computes its target price:
FixedPercentage `entry * (1 ∓ pct)`, Trailing `max/min observed price *
(1 ∓ pct)`, EMABased the EMA of closes offset by `offset_pct`, ATRBased
the entry anchor minus/plus `multiplier * ATR(period)`, SupportLevel the
support/resistance level of the lookback window. -/
def computeTarget (policy : StopLossConfig) (side : Side) (entryPrice : ℚ)
    (priceHistory : List ℚ) : Except PolicyError ℚ :=
  if priceHistory.length < requiredBars policy then
    .error .insufficientData
  else
    match policy, side with
    | .fixedPercentage pct, .long => .ok (entryPrice * (1 - pct))
    | .fixedPercentage pct, .short => .ok (entryPrice * (1 + pct))
    | .trailing pct _, .long => .ok (listMax priceHistory * (1 - pct))
    | .trailing pct _, .short => .ok (listMin priceHistory * (1 + pct))
    | .emaBased period offsetPct, .long => .ok (ema period priceHistory * (1 - offsetPct))
    | .emaBased period offsetPct, .short => .ok (ema period priceHistory * (1 + offsetPct))
    | .atrBased period multiplier, .long => .ok (entryPrice - multiplier * atr period priceHistory)
    | .atrBased period multiplier, .short => .ok (entryPrice + multiplier * atr period priceHistory)
    | .supportLevel lookback, _ => .ok (supportLevelPrice side lookback priceHistory)

/-- Modelled from the spec: the engine's tightening rule (spec §4.3,
Trailing): a newly computed target that would worsen protection relative
to the currently accepted stop is rejected — for a long position the
stop only ever moves up, for a short position only ever down; with no
stop accepted yet the target is accepted outright. -/
def acceptTarget (side : Side) (currentStop : Option ℚ) (target : ℚ) : ℚ :=
  match currentStop, side with
  | none, _ => target
  | some c, .long => if c < target then target else c
  | some c, .short => if target < c then target else c

/-- Modelled from the spec: one stop-recompute cycle for a position
(spec §4.4 trigger rule and §7 class (5)): compute the target from the
history snapshot; on insufficient data skip the cycle, leaving the
accepted stop unchanged for retry next cycle; otherwise accept the
target under the tightening rule. -/
def reconcileStop (policy : StopLossConfig) (side : Side) (entryPrice : ℚ)
    (currentStop : Option ℚ) (priceHistory : List ℚ) : Option ℚ :=
  match computeTarget policy side entryPrice priceHistory with
  | .ok target => some (acceptTarget side currentStop target)
  | .error _ => currentStop

/- ========================================================================
   Backend: Order Reconciliation Manager state machine (spec §4.4)
   ======================================================================== -/

/-- Per-position reconciliation status (spec §4.4), with the replace
protocol's two phases made explicit: `pendingCancel` is a replace whose
cancel request is outstanding, `pendingCreate` a replace whose cancel is
confirmed and whose create request is outstanding;
`needsReevaluation` is the "requires full re-evaluation (possible
close)" outcome of protocol rule (4). -/
inductive RecStatus where
  | noProtection
  | pendingPlace
  | protectedSt
  | pendingCancel
  | pendingCreate
  | needsReevaluation
  | failed
deriving DecidableEq, Repr

/-- Modelled from the spec: the reconciliation-relevant fields of a
Position (spec §3 and §4.4): the manager's status, the current
protective order id the Ledger believes live (nullable), the list of
protective orders actually live on the exchange for this position, and
a count of create (place) requests the manager has issued, used to
observe that a transition places no new order. -/
structure PositionState where
  status : RecStatus
  currentProtectiveOrderId : Option Nat
  liveProtectiveOrders : List Nat
  createRequestsIssued : Nat
deriving DecidableEq, Repr

/-- Events that mutate a Position (spec §3: fills, reconciliation
cycles, position-sync jobs; spec §4.4: the cancel-and-replace protocol's
confirmations and failures as reported by the exchange). -/
inductive RecEvent where
  | positionOpened
  | createConfirmed (orderId : Nat)
  | createFailed
  | targetImproved
  | cancelConfirmed
  | cancelNotFound
  | syncFoundMissing
  | protectiveOrderFilled
deriving DecidableEq, Repr

/-- Modelled from the spec: one transition of the Order Reconciliation
Manager's state machine (spec §4.4).  Opening a position or discovering
the protective order missing during sync issues a place request; a
confirmed create makes the new order live and records its id; a replace
is triggered by an improved target and proceeds cancel-first — only a
confirmed cancel (the order is gone from the exchange) lets the manager
issue the create for the new stop; a cancel answered "not found"
(protocol rule (4): the order already filled or is already gone) sends
the position to full re-evaluation without issuing any create; a stop
fill closes the position.  Events that do not apply in the current
status leave the state unchanged. -/
def step (s : PositionState) (e : RecEvent) : PositionState :=
  match s.status, e with
  | .noProtection, .positionOpened =>
      { s with status := .pendingPlace,
               createRequestsIssued := s.createRequestsIssued + 1 }
  | .pendingPlace, .createConfirmed oid =>
      { s with status := .protectedSt,
               currentProtectiveOrderId := some oid,
               liveProtectiveOrders := s.liveProtectiveOrders ++ [oid] }
  | .pendingPlace, .createFailed =>
      { s with status := .failed }
  | .protectedSt, .targetImproved =>
      { s with status := .pendingCancel }
  | .protectedSt, .syncFoundMissing =>
      { s with status := .pendingPlace,
               currentProtectiveOrderId := none,
               liveProtectiveOrders := s.liveProtectiveOrders.filter
                 (fun oid => s.currentProtectiveOrderId != some oid),
               createRequestsIssued := s.createRequestsIssued + 1 }
  | .protectedSt, .protectiveOrderFilled =>
      { s with status := .noProtection,
               currentProtectiveOrderId := none,
               liveProtectiveOrders := s.liveProtectiveOrders.filter
                 (fun oid => s.currentProtectiveOrderId != some oid) }
  | .pendingCancel, .cancelConfirmed =>
      { s with status := .pendingCreate,
               currentProtectiveOrderId := none,
               liveProtectiveOrders := s.liveProtectiveOrders.filter
                 (fun oid => s.currentProtectiveOrderId != some oid),
               createRequestsIssued := s.createRequestsIssued + 1 }
  | .pendingCancel, .cancelNotFound =>
      { s with status := .needsReevaluation,
               currentProtectiveOrderId := none,
               liveProtectiveOrders := s.liveProtectiveOrders.filter
                 (fun oid => s.currentProtectiveOrderId != some oid) }
  | .pendingCreate, .createConfirmed oid =>
      { s with status := .protectedSt,
               currentProtectiveOrderId := some oid,
               liveProtectiveOrders := s.liveProtectiveOrders ++ [oid] }
  | .pendingCreate, .createFailed =>
      { s with status := .failed,
               currentProtectiveOrderId := none }
  | _, _ => s

/-- The initial state of a Position's reconciliation: no protection, no
order believed live, nothing live on the exchange, no create issued. -/
def initialPosition : PositionState :=
  { status := .noProtection
    currentProtectiveOrderId := none
    liveProtectiveOrders := []
    createRequestsIssued := 0 }

/-- Run the reconciliation state machine over a sequence of events from
the initial state. -/
def runReconciliation (events : List RecEvent) : PositionState :=
  events.foldl step initialPosition

/-- The strengthened reconciliation invariant: the exchange-side live
protective orders are exactly the Ledger's current protective order id
(so there is at most one), and in every status in which the manager may
issue a create request no protective order is live. -/
def goodState (s : PositionState) : Prop :=
  match s.status with
  | .protectedSt | .pendingCancel =>
      s.liveProtectiveOrders = s.currentProtectiveOrderId.toList ∧
        s.currentProtectiveOrderId ≠ none
  | _ =>
      s.liveProtectiveOrders = [] ∧ s.currentProtectiveOrderId = none

/- ========================================================================
   Helper lemmas
   ======================================================================== -/

/-- The initial state satisfies the strengthened invariant. -/
lemma goodState_initial : goodState initialPosition := by
  simp [goodState, initialPosition]

/-- Every transition of the reconciliation state machine preserves the
strengthened invariant. -/
lemma goodState_step (s : PositionState) (e : RecEvent) (h : goodState s) :
    goodState (step s e) := by
  obtain ⟨st, cur, live, cnt⟩ := s
  cases st <;> cases e <;> cases cur <;>
    simp_all [goodState, step, List.filter_cons]

/-- The invariant holds after any event sequence from any good state. -/
lemma goodState_foldl (events : List RecEvent) :
    ∀ s : PositionState, goodState s → goodState (events.foldl step s) := by
  induction events with
  | nil => intro s h; exact h
  | cons e rest ih => intro s h; exact ih (step s e) (goodState_step s e h)

/-- Every reachable state of the reconciliation machine is good. -/
lemma goodState_run (events : List RecEvent) : goodState (runReconciliation events) :=
  goodState_foldl events initialPosition goodState_initial

/-- A good state has at most one live protective order, and every live
protective order is the tracked current one. -/
lemma goodState_bounds (s : PositionState) (h : goodState s) :
    s.liveProtectiveOrders.length ≤ 1 ∧
      ∀ oid ∈ s.liveProtectiveOrders, s.currentProtectiveOrderId = some oid := by
  obtain ⟨st, cur, live, cnt⟩ := s
  cases st <;> cases cur <;> simp_all [goodState]

/-- One reconcile cycle for a long position never lowers an accepted
stop: the result is an accepted stop at least as high. -/
lemma reconcileStop_long_step_mono (policy : StopLossConfig) (entry x : ℚ)
    (hist : List ℚ) :
    ∃ y, reconcileStop policy .long entry (some x) hist = some y ∧ x ≤ y := by
  unfold reconcileStop
  cases h : computeTarget policy .long entry hist with
  | error e => exact ⟨x, rfl, le_refl x⟩
  | ok t =>
      refine ⟨acceptTarget .long (some x) t, rfl, ?_⟩
      simp only [acceptTarget]
      split
      · exact le_of_lt (by assumption)
      · exact le_refl x

/-- Folding reconcile cycles over any sequence of history snapshots
never lowers an accepted long stop. -/
lemma reconcileStop_long_foldl_mono (policy : StopLossConfig) (entry : ℚ)
    (hists : List (List ℚ)) :
    ∀ x : ℚ, ∃ y, hists.foldl (reconcileStop policy .long entry) (some x) = some y ∧ x ≤ y := by
  induction hists with
  | nil => intro x; exact ⟨x, rfl, le_refl x⟩
  | cons hist rest ih =>
      intro x
      obtain ⟨x', hx', hle'⟩ := reconcileStop_long_step_mono policy entry x hist
      obtain ⟨y, hy, hley⟩ := ih x'
      refine ⟨y, ?_, le_trans hle' hley⟩
      simpa [List.foldl_cons, hx'] using hy

/- ========================================================================
   Claim theorems
   ======================================================================== -/

/-- C1: in every reachable state of the reconciliation state machine the
number of live protective orders attached to the Position is at most
one, every live protective order is the single one recorded in the
Position's nullable current protective order id, and this is preserved
by every event sequence (fills, reconciliation steps, replace protocol
confirmations, position sync). -/
theorem at_most_one_protective_order (events : List RecEvent) :
    (runReconciliation events).liveProtectiveOrders.length ≤ 1 ∧
      ∀ oid ∈ (runReconciliation events).liveProtectiveOrders,
        (runReconciliation events).currentProtectiveOrderId = some oid :=
  goodState_bounds (runReconciliation events) (goodState_run events)

/-- C4: when the cancel step of the replace protocol fails because the
order is already filled or gone (the exchange reports "not found"), the
manager transitions the position to full re-evaluation, never to the
Protected state, issues no new create request in that transition, and
the set of live protective orders does not grow. -/
theorem cancel_not_found_forces_reevaluation (s : PositionState)
    (h : s.status = RecStatus.pendingCancel) :
    (step s RecEvent.cancelNotFound).status = RecStatus.needsReevaluation ∧
      (step s RecEvent.cancelNotFound).status ≠ RecStatus.protectedSt ∧
      (step s RecEvent.cancelNotFound).createRequestsIssued = s.createRequestsIssued ∧
      (step s RecEvent.cancelNotFound).liveProtectiveOrders.length ≤
        s.liveProtectiveOrders.length := by
  obtain ⟨st, cur, live, cnt⟩ := s
  subst h
  refine ⟨rfl, by simp [step], rfl, ?_⟩
  simpa [step] using List.length_filter_le _ live

/-- Witness for C4 at the concrete state (pendingCancel, order 7 live,
two creates issued so far). -/
theorem cancel_not_found_forces_reevaluation_witness :
    (step ⟨RecStatus.pendingCancel, some 7, [7], 2⟩ RecEvent.cancelNotFound).status =
        RecStatus.needsReevaluation ∧
      (step ⟨RecStatus.pendingCancel, some 7, [7], 2⟩ RecEvent.cancelNotFound).status ≠
        RecStatus.protectedSt ∧
      (step ⟨RecStatus.pendingCancel, some 7, [7], 2⟩ RecEvent.cancelNotFound).createRequestsIssued = 2 ∧
      (step ⟨RecStatus.pendingCancel, some 7, [7], 2⟩ RecEvent.cancelNotFound).liveProtectiveOrders.length ≤ 1 :=
  cancel_not_found_forces_reevaluation ⟨RecStatus.pendingCancel, some 7, [7], 2⟩ rfl

/-- C2: for the Trailing policy, computeTarget on a non-empty history is
the maximum observed price times (1 - pct) for a long position (the
minimum times (1 + pct) for a short); the accepted long stop is monotone
over any sequence of reconcile cycles (a target that would worsen
protection is rejected); and concretely a long Trailing(2%) position
over prices [100, 105, 103] gets the stop 105 * 0.98 = 102.9, which a
subsequent drop to 101 does not lower. -/
theorem trailing_max_times_pct_and_monotone :
    (∀ (pct : ℚ) (tf : Nat) (entry : ℚ) (hist : List ℚ), hist ≠ [] →
        computeTarget (.trailing pct tf) .long entry hist =
          .ok (listMax hist * (1 - pct)) ∧
        computeTarget (.trailing pct tf) .short entry hist =
          .ok (listMin hist * (1 + pct))) ∧
    (∀ (pct : ℚ) (tf : Nat) (entry x : ℚ) (hists : List (List ℚ)),
        ∃ y, hists.foldl (reconcileStop (.trailing pct tf) .long entry) (some x) =
          some y ∧ x ≤ y) ∧
    reconcileStop (.trailing (2/100) 1) .long 100 none [100, 105, 103] =
      some (1029/10) ∧
    reconcileStop (.trailing (2/100) 1) .long 100 (some (1029/10)) [103, 101] =
      some (1029/10) := by
  refine ⟨?_, ?_, ?_, ?_⟩
  · intro pct tf entry hist hne
    have hlen : ¬ hist.length < 1 := by
      simpa [Nat.lt_one_iff, List.length_eq_zero] using hne
    constructor <;> simp [computeTarget, requiredBars, hlen]
  · intro pct tf entry x hists
    exact reconcileStop_long_foldl_mono (.trailing pct tf) entry hists x
  · norm_num [reconcileStop, computeTarget, requiredBars, listMax, acceptTarget]
  · norm_num [reconcileStop, computeTarget, requiredBars, listMax, acceptTarget]

/-- Witness for C2 on the non-empty history [100, 105, 103] with
pct = 2%. -/
theorem trailing_max_times_pct_witness :
    ([100, 105, 103] : List ℚ) ≠ [] ∧
    computeTarget (.trailing (2/100) 1) .long 100 [100, 105, 103] =
      .ok (listMax [100, 105, 103] * (1 - 2/100)) :=
  ⟨by simp,
   (trailing_max_times_pct_and_monotone.1 (2/100) 1 100 [100, 105, 103] (by simp)).1⟩

/-- C3: the FixedPercentage policy computes entry * (1 - pct) for a long
and entry * (1 + pct) for a short position, is independent of the price
history (hence the target never changes over the life of the position),
and a long entry of 100 with pct = 5% yields the stop 95. -/
theorem fixed_percentage_static (pct entry : ℚ) (side : Side)
    (hist hist2 : List ℚ) :
    computeTarget (.fixedPercentage pct) side entry hist =
        computeTarget (.fixedPercentage pct) side entry hist2 ∧
      computeTarget (.fixedPercentage pct) .long entry hist =
        .ok (entry * (1 - pct)) ∧
      computeTarget (.fixedPercentage pct) .short entry hist =
        .ok (entry * (1 + pct)) ∧
      computeTarget (.fixedPercentage (5/100)) .long 100 hist = .ok 95 := by
  refine ⟨?_, ?_, ?_, ?_⟩
  · cases side <;> simp [computeTarget, requiredBars]
  · simp [computeTarget, requiredBars]
  · simp [computeTarget, requiredBars]
  · norm_num [computeTarget, requiredBars]

/-- C5 counterexample: a failing top-pairs request does not surface the
error — `getTopTradingPairs` silently substitutes the hardcoded default
pair list, and a failing ticker request makes `getTickerPrice` return
null rather than the error. -/
theorem exchange_helpers_swallow_errors :
    getTopTradingPairs (.error .networkError) = defaultTopPairs ∧
      defaultTopPairs ≠ [] ∧
      getTickerPrice (.error .networkError) = none :=
  ⟨rfl, by decide, rfl⟩

/-- C5 amended: resolving an exchange identifier that is not registered
fails fast with a configuration error and never yields a default
connector; however, the frontend helper `getTopTradingPairs` substitutes
the hardcoded default pair list on any failing request, and
`getTickerPrice` returns null instead of propagating the error. -/
theorem unregistered_exchange_fails_fast :
    (∀ (C : Type) (registered : List (String × C)) (exchangeId : String),
        registered.lookup exchangeId = none →
        resolveConnector registered exchangeId =
          .error (.unsupportedExchange exchangeId)) ∧
      (∀ e : ApiError, getTopTradingPairs (.error e) = defaultTopPairs) ∧
      (∀ e : ApiError, getTickerPrice (.error e) = none) := by
  refine ⟨?_, fun e => rfl, fun e => rfl⟩
  intro C registered exchangeId h
  simp [resolveConnector, h]

/-- Witness for C5 amended: a registry holding only "binance" rejects
the unregistered identifier "foo" with a configuration error. -/
theorem unregistered_exchange_fails_fast_witness :
    ([("binance", "BinanceExchange")] : List (String × String)).lookup "foo" = none ∧
      resolveConnector [("binance", "BinanceExchange")] "foo" =
        .error (.unsupportedExchange "foo") :=
  ⟨by simp [List.lookup],
   unregistered_exchange_fails_fast.1 String [("binance", "BinanceExchange")] "foo"
     (by simp [List.lookup])⟩

/-- C6: every policy given a price history with fewer bars than its
required period fails with the explicit insufficient-data condition
rather than computing on the partial window, and the reconcile cycle for
that position is skipped, leaving the accepted stop unchanged for the
next scheduled cycle. -/
theorem insufficient_history_skips_cycle (policy : StopLossConfig) (side : Side)
    (entry : ℚ) (stop : Option ℚ) (hist : List ℚ)
    (h : hist.length < requiredBars policy) :
    computeTarget policy side entry hist = .error .insufficientData ∧
      reconcileStop policy side entry stop hist = stop := by
  have hct : computeTarget policy side entry hist = .error .insufficientData := by
    simp [computeTarget, h]
  exact ⟨hct, by simp [reconcileStop, hct]⟩

/-- Witness for C6 at the EMA(7) policy with a 3-bar history. -/
theorem insufficient_history_skips_cycle_witness :
    ([1, 2, 3] : List ℚ).length < requiredBars (.emaBased 7 (1/100)) ∧
      computeTarget (.emaBased 7 (1/100)) .long 100 [1, 2, 3] =
          .error .insufficientData ∧
        reconcileStop (.emaBased 7 (1/100)) .long 100 (some 5) [1, 2, 3] = some 5 :=
  ⟨by simp [requiredBars],
   insufficient_history_skips_cycle (.emaBased 7 (1/100)) .long 100 (some 5) [1, 2, 3]
     (by simp [requiredBars])⟩

/-- C7: the WebSocket reconnect logic waits `reconnectDelay * 2^(n-1)`
before retry attempt n (exponential backoff), and attempts are capped at
`maxReconnectAttempts`, after which no further retry is scheduled. -/
theorem reconnect_backoff_exponential_capped (attempt m : Nat)
    (h1 : 1 ≤ attempt) (h2 : attempt ≤ maxReconnectAttempts)
    (h3 : maxReconnectAttempts ≤ m) :
    attemptReconnect (attempt - 1) =
        some (attempt, reconnectDelay * 2 ^ (attempt - 1)) ∧
      attemptReconnect m = none := by
  have hlt : ¬ maxReconnectAttempts ≤ attempt - 1 := by
    simp only [maxReconnectAttempts] at h2 ⊢
    omega
  have heq : attempt - 1 + 1 = attempt := by omega
  constructor
  · simp [attemptReconnect, hlt, heq]
  · simp [attemptReconnect, h3]

/-- Witness for C7: the third retry attempt waits 1000 * 2^2 = 4000 ms,
and after five attempts no retry is scheduled. -/
theorem reconnect_backoff_witness :
    attemptReconnect (3 - 1) = some (3, reconnectDelay * 2 ^ (3 - 1)) ∧
      attemptReconnect 5 = none :=
  reconnect_backoff_exponential_capped 3 5 (by decide) (by decide) (by decide)

/-- C8: the payload `handleSubmit` passes to `createBot` has leverage 1
whenever the selected trade type is spot, regardless of the leverage
control, and forwards the chosen leverage exactly when the trade type is
futures. -/
theorem spot_trade_leverage_one (botName strategyName direction : String)
    (leverage : Nat) :
    (handleSubmitPayload botName strategyName .spot direction leverage).leverage = 1 ∧
      (handleSubmitPayload botName strategyName .futures direction leverage).leverage =
        leverage := by
  simp [handleSubmitPayload]

/-- C9 counterexample: toggling "A" twice on the duplicate-free
selection ["A", "B"] yields ["B", "A"], not the original selection
["A", "B"] — the pair is re-appended at the end. -/
theorem pair_toggle_twice_moves_to_end :
    handlePairToggle "A" (handlePairToggle "A" ["A", "B"]) = ["B", "A"] ∧
      (["B", "A"] : List String) ≠ ["A", "B"] := by
  decide

/-- C9 amended: on a duplicate-free selection, the toggle removes the
pair when present and appends it when absent, preserves freedom from
duplicates, and toggling the same pair twice returns the original
selection when the pair was absent — when it was present it returns the
original selection with that pair moved to the end, a permutation of
(but in general not equal to) the original list. -/
theorem pair_toggle_set_semantics (pair : String) (s : List String)
    (hnd : s.Nodup) :
    handlePairToggle pair s = (if pair ∈ s then s.erase pair else s ++ [pair]) ∧
      (handlePairToggle pair s).Nodup ∧
      handlePairToggle pair (handlePairToggle pair s) =
        (if pair ∈ s then s.erase pair ++ [pair] else s) ∧
      (handlePairToggle pair (handlePairToggle pair s)).Perm s := by
  have hfilter : ∀ t : List String, t.Nodup →
      t.filter (fun p => p ≠ pair) = t.erase pair := by
    intro t ht
    rw [ht.erase_eq_filter]
    apply List.filter_congr
    intro a _
    by_cases h : a = pair <;> simp [h]
  by_cases hmem : pair ∈ s
  · have h1 : handlePairToggle pair s = s.erase pair := by
      simp only [handlePairToggle, if_pos hmem]
      exact hfilter s hnd
    have hnd1 : (s.erase pair).Nodup := hnd.erase pair
    have hnotmem : pair ∉ s.erase pair := hnd.not_mem_erase
    have h2 : handlePairToggle pair (s.erase pair) = s.erase pair ++ [pair] := by
      simp only [handlePairToggle, if_neg hnotmem]
    refine ⟨by rw [h1, if_pos hmem], h1 ▸ hnd1, ?_, ?_⟩
    · rw [h1, h2, if_pos hmem]
    · rw [h1, h2]
      exact (List.perm_append_singleton pair (s.erase pair)).trans
        (List.perm_cons_erase hmem).symm
  · have h1 : handlePairToggle pair s = s ++ [pair] := by
      simp only [handlePairToggle, if_neg hmem]
    have hmem2 : pair ∈ s ++ [pair] := by simp
    have hsfilter : s.filter (fun p => p ≠ pair) = s := by
      apply List.filter_eq_self.mpr
      intro a ha
      have hne : a ≠ pair := fun h => hmem (h ▸ ha)
      simp [hne]
    have h2 : handlePairToggle pair (s ++ [pair]) = s := by
      simp only [handlePairToggle, if_pos hmem2, List.filter_append, hsfilter]
      simp
    have hnd1 : (s ++ [pair]).Nodup := by
      simp [List.nodup_append, hnd, hmem]
    refine ⟨by rw [h1, if_neg hmem], h1 ▸ hnd1, ?_, ?_⟩
    · rw [h1, h2, if_neg hmem]
    · rw [h1, h2]

/-- Witness for C9 amended at the duplicate-free selection ["A", "B"]
and the unselected pair "C". -/
theorem pair_toggle_set_semantics_witness :
    (["A", "B"] : List String).Nodup ∧
      (handlePairToggle "C" ["A", "B"] =
          (if "C" ∈ (["A", "B"] : List String) then (["A", "B"] : List String).erase "C"
            else ["A", "B"] ++ ["C"]) ∧
        (handlePairToggle "C" ["A", "B"]).Nodup ∧
        handlePairToggle "C" (handlePairToggle "C" ["A", "B"]) =
          (if "C" ∈ (["A", "B"] : List String) then (["A", "B"] : List String).erase "C" ++ ["C"]
            else ["A", "B"]) ∧
        (handlePairToggle "C" (handlePairToggle "C" ["A", "B"])).Perm ["A", "B"]) :=
  ⟨by decide, pair_toggle_set_semantics "C" ["A", "B"] (by decide)⟩

/-- C10: after every addNotification call the stored list is exactly the
first 100 entries of the new notification pushed onto the old list — so
it holds at most 100 entries, the most recently added notification
first, with the retained entries in order and only the oldest entries
dropped. -/
theorem notifications_bounded_newest_first (n : Notification)
    (l : List Notification) :
    addNotification n l = (n :: l).take 100 ∧
      (addNotification n l).length ≤ 100 ∧
      (addNotification n l).head? = some n := by
  have h1 : addNotification n l = (n :: l).take 100 := by
    by_cases h : 100 < (n :: l).length
    · simp [addNotification, h]
    · rw [List.length_cons] at h
      simp [addNotification, List.take_of_length_le (by simp; omega : (n :: l).length ≤ 100)]
  refine ⟨h1, ?_, ?_⟩
  · rw [h1]
    simp [List.length_take]
  · rw [h1]
    rfl
